import Mathlib

/-!
Verification of the foodgram backend's core logic against its specification.

The definitions below are a shallow embedding of the Python source:
  * `backend/recipes/models.py` — the data model (Ingredient, Recipe,
    RecipeIngredient, Subscription, Cart, Favorite and their Meta constraints);
  * `backend/api/views.py` — `RecipeViewSet.download_shopping_cart`,
    `RecipeViewSet.get_short_link` / `generate_short_link`,
    `RecipeViewSet.manage_item`, `SubscriptionViewSet.create`;
  * `backend/api/serializers.py` — `RecipeSerializer.validate` /
    `create` / `update` / `_check_user_recipe_status`,
    `SubscriptionSerializer.get_recipes`, `SubscriptionRecipeSerializer`.

Database tables are modelled as lists of rows, Python dicts (which preserve
insertion order) as association lists, and the random source of the short-link
generator as an injected stream of characters.
-/

namespace Foodgram

/-- Ingredient reference row (`recipes/models.py`, class `Ingredient`):
a name and a measurement unit; the id is irrelevant to aggregation. -/
structure Ingredient where
  name : String
  measurement_unit : String
deriving DecidableEq, Repr

/-- One recipe line item (`recipes/models.py`, class `RecipeIngredient`),
already joined to its ingredient row as `download_shopping_cart` reads it. -/
structure LineItem where
  ingredient : Ingredient
  amount : Nat
deriving DecidableEq, Repr

/-- One entry of the `ingredients_dict` built by `download_shopping_cart`:
the dict key (the ingredient name) together with the stored value
(measurement unit of the first occurrence, running amount). -/
abbrev ShoppingEntry := String × String × Nat

/-- One iteration of the inner loop of `RecipeViewSet.download_shopping_cart`
(api/views.py): if the ingredient name is already a key of `ingredients_dict`,
add the amount to the stored amount; otherwise insert a new entry recording
this item's measurement unit and amount.  The dict is keyed by the ingredient
NAME alone, exactly as in the source. -/
def addLine (acc : List ShoppingEntry) (li : LineItem) : List ShoppingEntry :=
  if acc.any (fun e => e.1 = li.ingredient.name) then
    acc.map (fun e =>
      if e.1 = li.ingredient.name then (e.1, e.2.1, e.2.2 + li.amount) else e)
  else
    acc ++ [(li.ingredient.name, li.ingredient.measurement_unit, li.amount)]

/-- The `ingredients_dict` built by the two nested loops of
`download_shopping_cart`: the cart is given as the list of the cart recipes'
line-item lists, traversed in order. -/
def ingredients_dict (cart : List (List LineItem)) : List ShoppingEntry :=
  cart.flatten.foldl addLine []

/-- One line written to the response by `download_shopping_cart`. -/
def renderEntry (e : ShoppingEntry) : String :=
  e.1 ++ " (" ++ e.2.1 ++ ") - " ++ toString e.2.2 ++ "\n"

/-- The plain-text report body produced by `download_shopping_cart`. -/
def buildShoppingList (cart : List (List LineItem)) : String :=
  String.join ((ingredients_dict cart).map renderEntry)

/-! Spec-side definitions for the shopping list, written from the claim's
words: grouping keyed by the (name, measurement unit) pair. -/

/-- Modelled from the spec's words (not from the source): the aggregation
step the claim describes, keyed by the (name, unit) pair. -/
def addLineByPair (acc : List ((String × String) × Nat)) (li : LineItem) :
    List ((String × String) × Nat) :=
  if acc.any (fun e => e.1 = (li.ingredient.name, li.ingredient.measurement_unit)) then
    acc.map (fun e =>
      if e.1 = (li.ingredient.name, li.ingredient.measurement_unit) then
        (e.1, e.2 + li.amount)
      else e)
  else
    acc ++ [((li.ingredient.name, li.ingredient.measurement_unit), li.amount)]

/-- Modelled from the spec's words: the report the claim describes, one line
per (name, unit) group. -/
def specShoppingListByPair (cart : List (List LineItem)) : String :=
  String.join ((cart.flatten.foldl addLineByPair []).map (fun e =>
    e.1.1 ++ " (" ++ e.1.2 ++ ") - " ++ toString e.2 ++ "\n"))

/-! Characterisation of what the code actually computes: grouping by name
alone, unit taken from the first occurrence of the name, amounts summed over
every line item bearing the name. -/

/-- The distinct values of a list in order of first occurrence. -/
def dedupFirst : List String → List String
  | [] => []
  | n :: rest => n :: dedupFirst (rest.filter (fun m => !(m = n : Bool)))
termination_by l => l.length
decreasing_by
  simp only [List.length_cons]
  exact Nat.lt_succ_of_le (List.length_filter_le _ _)

/-- The names of a list of line items, in order. -/
def itemNames (items : List LineItem) : List String :=
  items.map (fun li => li.ingredient.name)

/-- Sum of the amounts of every line item bearing the given name. -/
def sumAmountsFor (items : List LineItem) (n : String) : Nat :=
  ((items.filter (fun li => li.ingredient.name = n)).map (fun li => li.amount)).sum

/-- The measurement unit of the first line item bearing the given name. -/
def firstUnitFor (items : List LineItem) (n : String) : String :=
  ((items.find? (fun li => li.ingredient.name = n)).map
    (fun li => li.ingredient.measurement_unit)).getD ""

/-- Association lookup in the dict: the value stored under a name. -/
def lookupE (acc : List ShoppingEntry) (n : String) : Option (String × Nat) :=
  (acc.find? (fun e => e.1 = n)).map (fun e => e.2)

lemma fst_addLine_entry (li : LineItem) (e : ShoppingEntry) :
    (if e.1 = li.ingredient.name then (e.1, e.2.1, e.2.2 + li.amount) else e).1 = e.1 := by
  split <;> rfl

lemma any_key_iff (acc : List ShoppingEntry) (s : String) :
    acc.any (fun e => e.1 = s) = true ↔ s ∈ acc.map Prod.fst := by
  simp [List.any_eq_true, List.mem_map]

lemma keys_addLine (acc : List ShoppingEntry) (li : LineItem) :
    (addLine acc li).map Prod.fst =
      if acc.any (fun e => e.1 = li.ingredient.name) then acc.map Prod.fst
      else acc.map Prod.fst ++ [li.ingredient.name] := by
  by_cases h : acc.any (fun e => e.1 = li.ingredient.name) = true
  · simp only [addLine, if_pos h, List.map_map]
    exact List.map_congr_left (fun e _ => fst_addLine_entry li e)
  · simp only [addLine, if_neg h, List.map_append]
    rfl

lemma lookupE_addLine (acc : List ShoppingEntry) (li : LineItem) (n : String) :
    lookupE (addLine acc li) n =
      if n = li.ingredient.name then
        match lookupE acc n with
        | some ua => some (ua.1, ua.2 + li.amount)
        | none => some (li.ingredient.measurement_unit, li.amount)
      else lookupE acc n := by
  by_cases hany : acc.any (fun e => e.1 = li.ingredient.name) = true
  · simp only [addLine, if_pos hany, lookupE, List.find?_map]
    have hpred : ((fun e : ShoppingEntry => (e.1 = n : Bool)) ∘
        (fun e : ShoppingEntry =>
          if e.1 = li.ingredient.name then (e.1, e.2.1, e.2.2 + li.amount) else e)) =
        (fun e : ShoppingEntry => (e.1 = n : Bool)) := by
      funext e
      simp [Function.comp, fst_addLine_entry li e]
    rw [hpred]
    by_cases hn : n = li.ingredient.name
    · rw [if_pos hn]
      cases hfind : acc.find? (fun e => (e.1 = n : Bool)) with
      | none =>
        exfalso
        obtain ⟨e, he, hpe⟩ := List.any_eq_true.mp hany
        have : (acc.find? (fun e => (e.1 = n : Bool))).isSome := by
          refine List.find?_isSome.mpr ⟨e, he, ?_⟩
          simpa [hn] using hpe
        simp [hfind] at this
      | some e =>
        have he1 : e.1 = n := by simpa using List.find?_some hfind
        simp [he1, hn]
    · rw [if_neg hn]
      cases hfind : acc.find? (fun e => (e.1 = n : Bool)) with
      | none => simp
      | some e =>
        have he1 : e.1 = n := by simpa using List.find?_some hfind
        have : e.1 ≠ li.ingredient.name := he1 ▸ hn
        simp [this]
  · simp only [addLine, if_neg hany, lookupE, List.find?_append]
    have hnone : ∀ e ∈ acc, ¬((e.1 = li.ingredient.name : Bool) = true) :=
      List.any_eq_false.mp (Bool.not_eq_true _ ▸ hany)
    by_cases hn : n = li.ingredient.name
    · subst hn
      have hfa : acc.find? (fun e => (e.1 = li.ingredient.name : Bool)) = none := by
        cases hf : acc.find? (fun e => (e.1 = li.ingredient.name : Bool)) with
        | none => rfl
        | some e =>
          exfalso
          exact hnone e (List.mem_of_find?_eq_some hf)
            (by simpa using List.find?_some hf)
      simp [hfa]
    · have hone : List.find? (fun e : ShoppingEntry => (e.1 = n : Bool))
          [(li.ingredient.name, li.ingredient.measurement_unit, li.amount)] = none := by
        apply List.find?_cons_of_neg
        simp only [decide_eq_true_eq]
        exact fun hc => hn hc.symm
      rw [hone]
      cases hf : acc.find? (fun e => (e.1 = n : Bool)) <;> simp [if_neg hn]

lemma sumAmountsFor_cons (li : LineItem) (rest : List LineItem) (n : String) :
    sumAmountsFor (li :: rest) n =
      (if li.ingredient.name = n then li.amount else 0) + sumAmountsFor rest n := by
  simp only [sumAmountsFor, List.filter_cons]
  by_cases h : li.ingredient.name = n
  · simp [h]
  · simp [h]

lemma lookupE_foldl :
    ∀ (items : List LineItem) (acc : List ShoppingEntry) (n : String),
      lookupE (items.foldl addLine acc) n =
        match lookupE acc n with
        | some ua => some (ua.1, ua.2 + sumAmountsFor items n)
        | none =>
            (items.find? (fun li => li.ingredient.name = n)).map
              (fun li => (li.ingredient.measurement_unit, sumAmountsFor items n))
  | [], acc, n => by
    cases h : lookupE acc n <;> simp [h, sumAmountsFor]
  | li :: rest, acc, n => by
    rw [List.foldl_cons, lookupE_foldl rest (addLine acc li) n, lookupE_addLine]
    by_cases hn : n = li.ingredient.name
    · rw [if_pos hn]
      cases h : lookupE acc n with
      | none =>
        have hfind : (li :: rest).find? (fun li => (li.ingredient.name = n : Bool)) =
            some li := List.find?_cons_of_pos _ (by simp [hn])
        simp [h, hfind, sumAmountsFor_cons, hn, Nat.add_assoc]
      | some ua =>
        simp [h, sumAmountsFor_cons, hn, Nat.add_assoc]
    · rw [if_neg hn]
      have hfind : (li :: rest).find? (fun li => (li.ingredient.name = n : Bool)) =
          rest.find? (fun li => (li.ingredient.name = n : Bool)) :=
        List.find?_cons_of_neg _ (by simp; exact fun h => hn h.symm)
      have hsum : sumAmountsFor (li :: rest) n = sumAmountsFor rest n := by
        rw [sumAmountsFor_cons, if_neg (fun h => hn h.symm), Nat.zero_add]
      cases h : lookupE acc n <;> simp [h, hfind, hsum]

lemma keys_foldl :
    ∀ (items : List LineItem) (acc : List ShoppingEntry),
      (items.foldl addLine acc).map Prod.fst =
        acc.map Prod.fst ++
          dedupFirst ((itemNames items).filter
            (fun n => !(n ∈ acc.map Prod.fst : Bool)))
  | [], acc => by simp [itemNames, dedupFirst]
  | li :: rest, acc => by
    rw [List.foldl_cons, keys_foldl rest (addLine acc li)]
    rw [keys_addLine]
    by_cases h : acc.any (fun e => e.1 = li.ingredient.name) = true
    · rw [if_pos h]
      have hmem : li.ingredient.name ∈ acc.map Prod.fst := (any_key_iff acc _).mp h
      have hstep : (itemNames (li :: rest)).filter
            (fun n => !(n ∈ acc.map Prod.fst : Bool)) =
          (itemNames rest).filter (fun n => !(n ∈ acc.map Prod.fst : Bool)) := by
        simp only [itemNames, List.map_cons, List.filter_cons]
        simp [hmem]
      rw [hstep]
    · rw [if_neg h]
      have hmem : li.ingredient.name ∉ acc.map Prod.fst :=
        fun hc => h ((any_key_iff acc _).mpr hc)
      have hfilter : (itemNames rest).filter
            (fun n => !(n ∈ acc.map Prod.fst ++ [li.ingredient.name] : Bool)) =
          ((itemNames rest).filter (fun n => !(n ∈ acc.map Prod.fst : Bool))).filter
            (fun m => !(m = li.ingredient.name : Bool)) := by
        rw [List.filter_filter]
        refine List.filter_congr (fun m _ => ?_)
        by_cases h1 : m ∈ acc.map Prod.fst <;> by_cases h2 : m = li.ingredient.name <;>
          simp [h1, h2, List.mem_append]
      have hstep : (itemNames (li :: rest)).filter
            (fun n => !(n ∈ acc.map Prod.fst : Bool)) =
          li.ingredient.name ::
            ((itemNames rest).filter (fun n => !(n ∈ acc.map Prod.fst : Bool))) := by
        simp only [itemNames, List.map_cons, List.filter_cons]
        simp [hmem]
      rw [hfilter, hstep, dedupFirst, List.append_assoc]
      rfl

lemma mem_dedupFirst : ∀ (l : List String) (m : String), m ∈ dedupFirst l ↔ m ∈ l
  | [], m => by simp [dedupFirst]
  | n :: rest, m => by
    rw [dedupFirst]
    by_cases h : m = n
    · simp [h]
    · simp only [List.mem_cons, h, false_or]
      rw [mem_dedupFirst (rest.filter (fun x => !(x = n : Bool))) m]
      simp [List.mem_filter, h]
termination_by l => l.length
decreasing_by
  simp only [List.length_cons]
  exact Nat.lt_succ_of_le (List.length_filter_le _ _)

lemma nodup_dedupFirst : ∀ (l : List String), (dedupFirst l).Nodup
  | [] => by simp [dedupFirst]
  | n :: rest => by
    rw [dedupFirst]
    refine List.nodup_cons.mpr ⟨?_, nodup_dedupFirst (rest.filter (fun m => !(m = n : Bool)))⟩
    intro hmem
    have := (mem_dedupFirst _ n).mp hmem
    simp [List.mem_filter] at this
termination_by l => l.length
decreasing_by
  simp only [List.length_cons]
  exact Nat.lt_succ_of_le (List.length_filter_le _ _)

lemma entries_reconstruct :
    ∀ (d : List ShoppingEntry), (d.map Prod.fst).Nodup →
      d = (d.map Prod.fst).map (fun n => (n, (lookupE d n).getD ("", 0)))
  | [], _ => rfl
  | e :: d', h => by
    simp only [List.map_cons, List.nodup_cons] at h
    obtain ⟨h1, h2⟩ := h
    have hhead : lookupE (e :: d') e.1 = some e.2 := by
      unfold lookupE
      rw [List.find?_cons_of_pos _ (by simp)]
      rfl
    have htail : ∀ n ∈ List.map Prod.fst d', lookupE (e :: d') n = lookupE d' n := by
      intro n hn
      have hne : e.1 ≠ n := fun hc => h1 (hc ▸ hn)
      unfold lookupE
      rw [List.find?_cons_of_neg _ (by simpa using hne)]
    have hh : (e.1, (lookupE (e :: d') e.1).getD ("", 0)) = e := by
      rw [hhead]
      rfl
    have ht : List.map (fun n => (n, (lookupE (e :: d') n).getD ("", 0)))
        (List.map Prod.fst d') = d' := by
      rw [List.map_congr_left (fun n hn => by rw [htail n hn] :
        ∀ n ∈ List.map Prod.fst d',
          ((n, (lookupE (e :: d') n).getD ("", 0)) : ShoppingEntry) =
            (n, (lookupE d' n).getD ("", 0)))]
      exact (entries_reconstruct d' h2).symm
    rw [List.map_cons, List.map_cons, hh, ht]

/-- C1, counterexample: the shopping-list aggregator does NOT use the
(name, measurement unit) pair as its grouping key.  A cart holding one recipe
with two line items named "flour" in different units ("g" and "kg") yields the
single line "flour (g) - 203", whereas grouping by (name, unit) — as the
claim states — would yield two lines; so the claim is false on this input. -/
theorem shoppingList_pair_grouping_counterexample :
    buildShoppingList [[⟨⟨"flour", "g"⟩, 200⟩, ⟨⟨"flour", "kg"⟩, 3⟩]] =
      "flour (g) - 203\n" ∧
    specShoppingListByPair [[⟨⟨"flour", "g"⟩, 200⟩, ⟨⟨"flour", "kg"⟩, 3⟩]] =
      "flour (g) - 200\nflour (kg) - 3\n" ∧
    buildShoppingList [[⟨⟨"flour", "g"⟩, 200⟩, ⟨⟨"flour", "kg"⟩, 3⟩]] ≠
      specShoppingListByPair [[⟨⟨"flour", "g"⟩, 200⟩, ⟨⟨"flour", "kg"⟩, 3⟩]] :=
  ⟨rfl, rfl, by decide⟩

/-- C1, amended: `buildShoppingList` groups the cart's line items by the
ingredient NAME alone (so two Ingredient rows with identical name and unit do
land on the same report line, but so do rows with equal names and different
units); per name group it sums `amount` over all contributing line items,
records the measurement unit of the first-seen line item bearing the name, and
emits one newline-terminated line "name (unit) - summed_amount" per group, in
first-seen order, for every cart contents. -/
theorem shoppingList_groups_by_name_only (cart : List (List LineItem)) :
    ingredients_dict cart =
      (dedupFirst (itemNames cart.flatten)).map
        (fun n => (n, firstUnitFor cart.flatten n, sumAmountsFor cart.flatten n)) ∧
    buildShoppingList cart =
      String.join ((dedupFirst (itemNames cart.flatten)).map (fun n =>
        n ++ " (" ++ firstUnitFor cart.flatten n ++ ") - " ++
          toString (sumAmountsFor cart.flatten n) ++ "\n")) := by
  have hkeys : (ingredients_dict cart).map Prod.fst =
      dedupFirst (itemNames cart.flatten) := by
    have h := keys_foldl cart.flatten []
    simpa [ingredients_dict] using h
  have hnodup : ((ingredients_dict cart).map Prod.fst).Nodup := by
    rw [hkeys]
    exact nodup_dedupFirst _
  have hre := entries_reconstruct (ingredients_dict cart) hnodup
  rw [hkeys] at hre
  have hval : ∀ n ∈ dedupFirst (itemNames cart.flatten),
      ((n, (lookupE (ingredients_dict cart) n).getD ("", 0)) : ShoppingEntry) =
        (n, firstUnitFor cart.flatten n, sumAmountsFor cart.flatten n) := by
    intro n hn
    have hmemnames : n ∈ itemNames cart.flatten := (mem_dedupFirst _ n).mp hn
    obtain ⟨li, hli, hname⟩ := List.mem_map.mp hmemnames
    obtain ⟨li0, hli0⟩ : ∃ li0,
        cart.flatten.find? (fun li => (li.ingredient.name = n : Bool)) = some li0 := by
      have hs : (cart.flatten.find? (fun li => (li.ingredient.name = n : Bool))).isSome :=
        List.find?_isSome.mpr ⟨li, hli, by simp [hname]⟩
      exact Option.isSome_iff_exists.mp hs
    have hlook : lookupE (ingredients_dict cart) n =
        some (li0.ingredient.measurement_unit, sumAmountsFor cart.flatten n) := by
      have h := lookupE_foldl cart.flatten [] n
      simpa [ingredients_dict, lookupE, hli0] using h
    have hunit : firstUnitFor cart.flatten n = li0.ingredient.measurement_unit := by
      simp [firstUnitFor, hli0]
    rw [hlook, hunit]
    rfl
  refine ⟨hre.trans (List.map_congr_left hval), ?_⟩
  calc buildShoppingList cart
      = String.join ((ingredients_dict cart).map renderEntry) := rfl
    _ = String.join (((dedupFirst (itemNames cart.flatten)).map
          (fun n => ((n, firstUnitFor cart.flatten n,
            sumAmountsFor cart.flatten n) : ShoppingEntry))).map renderEntry) := by
        rw [hre.trans (List.map_congr_left hval)]
    _ = String.join ((dedupFirst (itemNames cart.flatten)).map (fun n =>
          n ++ " (" ++ firstUnitFor cart.flatten n ++ ") - " ++
            toString (sumAmountsFor cart.flatten n) ++ "\n")) := by
        rw [List.map_map]
        rfl

/-! Recipe composition: `RecipeSerializer.validate` / `create` / `update`
(api/serializers.py). -/

/-- The six rejections raised by `RecipeSerializer.validate`, named per the
spec's error taxonomy; each corresponds to one `ValidationError(...)` raise
in the source, in source order. -/
inductive VError
  | EmptyIngredients
  | DuplicateIngredient
  | EmptyTags
  | DuplicateTag
  | InvalidCookingTime
  | MissingImage
deriving DecidableEq, Repr

/-- The deserialized input reaching `RecipeSerializer.validate`: line items
as (ingredient id, amount) pairs, tag ids, the cooking time (`none` when the
field is absent) and the image payload (`none` when absent or null). -/
structure RecipeInput where
  ingredients : List (Nat × Nat)
  tags : List Nat
  cooking_time : Option Int
  image : Option String
deriving DecidableEq, Repr

/-- `RecipeSerializer.validate` (api/serializers.py): the checks in source
order; Python's duplicate test `len(ids) != len(set(ids))` is modelled by
comparing the length of `List.dedup` (the distinct elements) with the list
length, and Python falsiness of a missing/null field by `Option.isNone`. -/
def validate (attrs : RecipeInput) : Except VError RecipeInput :=
  if attrs.ingredients.isEmpty then .error .EmptyIngredients
  else if (attrs.ingredients.map Prod.fst).dedup.length ≠
      (attrs.ingredients.map Prod.fst).length then .error .DuplicateIngredient
  else if attrs.tags.isEmpty then .error .EmptyTags
  else if attrs.tags.dedup.length ≠ attrs.tags.length then .error .DuplicateTag
  else
    match attrs.cooking_time with
    | none => .error .InvalidCookingTime
    | some ct =>
      if ct ≤ 0 then .error .InvalidCookingTime
      else
        match attrs.image with
        | none => .error .MissingImage
        | some _ => .ok attrs

/-- The persisted composition state the serializer writes: line-item rows
(recipe id, ingredient id, amount) and tag-association rows (recipe id,
tag id); `nextId` stands for the storage's id allocator. -/
structure ComposeDB where
  nextId : Nat
  lineItems : List (Nat × Nat × Nat)
  recipeTags : List (Nat × Nat)
deriving DecidableEq, Repr

/-- The writes of `RecipeSerializer.create`: insert the recipe row, one
`RecipeIngredient` row per line item in order, and the tag associations. -/
def composeWrites (db : ComposeDB) (attrs : RecipeInput) : ComposeDB :=
  { nextId := db.nextId + 1,
    lineItems := db.lineItems ++ attrs.ingredients.map (fun p => (db.nextId, p.1, p.2)),
    recipeTags := db.recipeTags ++ attrs.tags.map (fun t => (db.nextId, t)) }

/-- Recipe creation as the serializer runs it: `validate` first (DRF's
is_valid step), `create`'s writes only when validation passes; on failure
the error is reported and the state is returned untouched. -/
def composeRecipe (db : ComposeDB) (attrs : RecipeInput) :
    Except VError Unit × ComposeDB :=
  match validate attrs with
  | .error e => (.error e, db)
  | .ok a => (.ok (), composeWrites db a)

/-- The writes of `RecipeSerializer.update` for a full (validated) input:
delete every `RecipeIngredient` row of the recipe and re-create the new ones
(`instance.recipeingredient_set.all().delete()` plus the creation loop), and
replace the tag association set (`instance.tags.set(tags_data)`). -/
def updateRecipe (db : ComposeDB) (rid : Nat) (attrs : RecipeInput) : ComposeDB :=
  { db with
    lineItems := db.lineItems.filter (fun r => !(r.1 = rid : Bool)) ++
      attrs.ingredients.map (fun p => (rid, p.1, p.2)),
    recipeTags := db.recipeTags.filter (fun r => !(r.1 = rid : Bool)) ++
      attrs.tags.map (fun t => (rid, t)) }

/-- Recipe update as the serializer runs it: same `validate` gate, then the
replace-in-full writes. -/
def updateRecipeChecked (db : ComposeDB) (rid : Nat) (attrs : RecipeInput) :
    Except VError Unit × ComposeDB :=
  match validate attrs with
  | .error e => (.error e, db)
  | .ok a => (.ok (), updateRecipe db rid a)

/-- Modelled from the claim's words: the first failing check in the claimed
order (a)-(f) — line items non-empty, ingredient ids pairwise distinct, tag
refs non-empty, tag refs pairwise distinct, cooking time a positive integer,
image payload present. -/
def specFirstError (i : RecipeInput) : Option VError :=
  if i.ingredients = [] then some .EmptyIngredients
  else if ¬ (i.ingredients.map Prod.fst).Pairwise (fun a b => a ≠ b) then
    some .DuplicateIngredient
  else if i.tags = [] then some .EmptyTags
  else if ¬ i.tags.Pairwise (fun a b => a ≠ b) then some .DuplicateTag
  else
    match i.cooking_time with
    | none => some .InvalidCookingTime
    | some ct =>
      if ct ≤ 0 then some .InvalidCookingTime
      else if i.image = none then some .MissingImage
      else none

lemma dedup_length_eq_iff (l : List Nat) : l.dedup.length = l.length ↔ l.Nodup := by
  constructor
  · intro h
    have heq := List.Sublist.eq_of_length (List.dedup_sublist l) h
    rw [← heq]
    exact List.nodup_dedup l
  · intro h
    rw [List.dedup_eq_self.mpr h]

lemma validate_eq_specFirstError (attrs : RecipeInput) :
    validate attrs =
      match specFirstError attrs with
      | some e => .error e
      | none => .ok attrs := by
  unfold validate specFirstError
  by_cases h1 : attrs.ingredients = []
  · simp [h1]
  · have h1' : attrs.ingredients.isEmpty = false := by
      simpa [List.isEmpty_iff] using h1
    by_cases h2 : (attrs.ingredients.map Prod.fst).Nodup
    · have hp2 : List.Pairwise (fun a b : Nat => a ≠ b)
          (attrs.ingredients.map Prod.fst) := h2
      have h2' : (attrs.ingredients.map Prod.fst).dedup.length =
          (attrs.ingredients.map Prod.fst).length := (dedup_length_eq_iff _).mpr h2
      by_cases h3 : attrs.tags = []
      · simp [h1, h1', hp2, h2', h3]
      · have h3' : attrs.tags.isEmpty = false := by
          simpa [List.isEmpty_iff] using h3
        by_cases h4 : attrs.tags.Nodup
        · have hp4 : List.Pairwise (fun a b : Nat => a ≠ b) attrs.tags := h4
          have h4' : attrs.tags.dedup.length = attrs.tags.length :=
            (dedup_length_eq_iff _).mpr h4
          cases hct : attrs.cooking_time with
          | none => simp [h1, h1', hp2, h2', h3, h3', hp4, h4', hct]
          | some ct =>
            by_cases h5 : ct ≤ 0
            · simp [h1, h1', hp2, h2', h3, h3', hp4, h4', hct, h5]
            · cases him : attrs.image with
              | none => simp [h1, h1', hp2, h2', h3, h3', hp4, h4', hct, h5, him]
              | some im => simp [h1, h1', hp2, h2', h3, h3', hp4, h4', hct, h5, him]
        · have hp4 : ¬ List.Pairwise (fun a b : Nat => a ≠ b) attrs.tags := h4
          have h4' : attrs.tags.dedup.length ≠ attrs.tags.length :=
            fun hc => h4 ((dedup_length_eq_iff _).mp hc)
          simp [h1, h1', hp2, h2', hp4, h4', h3, h3']
    · have hp2 : ¬ List.Pairwise (fun a b : Nat => a ≠ b)
          (attrs.ingredients.map Prod.fst) := h2
      have h2' : ¬ (attrs.ingredients.map Prod.fst).dedup.length =
          attrs.ingredients.length := by
        simpa using fun hc => h2 ((dedup_length_eq_iff _).mp (by simpa using hc))
      simp [h1, h1', hp2, h2']

/-- C2: for every creation or update input, the serializer validates in the
claimed order (a) line items non-empty, (b) ingredient ids pairwise distinct,
(c) tags non-empty, (d) tags pairwise distinct, (e) cooking time a positive
integer, (f) image present — the first failing check rejects with the
corresponding error and the persisted state is returned unchanged; all
checks pass exactly when nothing fails, and only then are the writes done. -/
theorem composeRecipe_first_failure (db : ComposeDB) (rid : Nat) (attrs : RecipeInput) :
    composeRecipe db attrs =
      (match specFirstError attrs with
       | some e => (Except.error e, db)
       | none => (Except.ok (), composeWrites db attrs)) ∧
    updateRecipeChecked db rid attrs =
      (match specFirstError attrs with
       | some e => (Except.error e, db)
       | none => (Except.ok (), updateRecipe db rid attrs)) := by
  refine ⟨?_, ?_⟩ <;> simp only [composeRecipe, updateRecipeChecked] <;>
    rw [validate_eq_specFirstError] <;> cases specFirstError attrs <;> rfl

lemma filter_key_after_replace {α : Type} (key : α → Nat) (rows new : List α)
    (rid : Nat) (hnew : ∀ r ∈ new, key r = rid) :
    (rows.filter (fun r => !(key r = rid : Bool)) ++ new).filter
      (fun r => (key r = rid : Bool)) = new := by
  rw [List.filter_append]
  have h1 : (rows.filter (fun r => !(key r = rid : Bool))).filter
      (fun r => (key r = rid : Bool)) = [] := by
    rw [List.filter_eq_nil_iff]
    intro a ha
    have hmem := (List.mem_filter.mp ha).2
    simp at hmem ⊢
    exact hmem
  have h2 : new.filter (fun r => (key r = rid : Bool)) = new := by
    rw [List.filter_eq_self]
    intro a ha
    simp [hnew a ha]
  rw [h1, h2, List.nil_append]

/-- C3: two successive `updateRecipe` calls on the same recipe leave exactly
the second call's line-item set and tag set persisted for that recipe — the
update is a full delete plus reinsert, leaving no residue of the first set. -/
theorem updateRecipe_replaces_in_full (db : ComposeDB) (rid : Nat)
    (a1 a2 : RecipeInput) :
    ((updateRecipe (updateRecipe db rid a1) rid a2).lineItems.filter
        (fun r => (r.1 = rid : Bool))) =
      a2.ingredients.map (fun p => (rid, p.1, p.2)) ∧
    ((updateRecipe (updateRecipe db rid a1) rid a2).recipeTags.filter
        (fun r => (r.1 = rid : Bool))) =
      a2.tags.map (fun t => (rid, t)) := by
  refine ⟨?_, ?_⟩ <;> simp only [updateRecipe] <;>
    refine filter_key_after_replace Prod.fst _ _ rid ?_ <;> intro r hr <;>
    obtain ⟨p, hp, rfl⟩ := List.mem_map.mp hr <;> rfl

/-! Short-link issuer: `RecipeViewSet.get_short_link` and
`RecipeViewSet.generate_short_link` (api/views.py).  The `Shortcut` model
itself is not declared in the sources present (views.py imports it from
recipes.models, which here lacks it); its row shape — one row per recipe
holding the link string, looked up by `get_or_create(recipe=...)` — is
reconstructed from its use in views.py and the spec's ShortLink record
{recipe_ref, token}.  `random.choices` over the 62-symbol alphabet is
modelled by consuming an injected stream of characters. -/

/-- The alphabet `string.ascii_letters + string.digits` used by
`generate_short_link`. -/
def linkAlphabet : List Char :=
  "abcdefghijklmnopqrstuvwxyzABCDEFGHIJKLMNOPQRSTUVWXYZ0123456789".toList

/-- A persisted Shortcut row (modelled from views.py usage and the spec). -/
structure Shortcut where
  recipe : Nat
  link : String
deriving DecidableEq, Repr

/-- `RecipeViewSet.generate_short_link`: the literal prefix '/s/' followed by
6 characters drawn from the random stream; returns the link and the rest of
the stream. -/
def generate_short_link (rng : List Char) : String × List Char :=
  ("/s/" ++ String.mk (rng.take 6), rng.drop 6)

/-- The issuer state: the Shortcut table and the pending random stream. -/
structure LinkState where
  shortcuts : List Shortcut
  rng : List Char
deriving DecidableEq, Repr

/-- `RecipeViewSet.get_short_link`: `Shortcut.objects.get_or_create(recipe=
recipe)` returns the existing row when one exists; only when the row was
freshly created is a link generated — by a SINGLE draw, with no check against
existing tokens — and saved.  The absolute short link is returned. -/
def get_short_link (st : LinkState) (rid : Nat) : String × LinkState :=
  match st.shortcuts.find? (fun sc => sc.recipe = rid) with
  | some sc => ("https://foodgram.example.org" ++ sc.link, st)
  | none =>
      let g := generate_short_link st.rng
      ("https://foodgram.example.org" ++ g.1,
        ⟨st.shortcuts ++ [⟨rid, g.1⟩], g.2⟩)

/-- C4, counterexample: with the (alphabet-conforming) random stream
"abc123abc123", issuing links for recipe 1 and then recipe 2 persists the
SAME token "/s/abc123" for both recipes — no collision retry happens — and
the persisted token has 9 characters, not 6.  Both the six-character shape
and the global-uniqueness invariant of the claim fail on this run. -/
theorem short_link_collision_counterexample :
    ((get_short_link ((get_short_link ⟨[], "abc123abc123".toList⟩ 1).2) 2).2).shortcuts =
      [⟨1, "/s/abc123"⟩, ⟨2, "/s/abc123"⟩] ∧
    (∀ c ∈ "abc123abc123".toList, c ∈ linkAlphabet) ∧
    "/s/abc123".length ≠ 6 :=
  ⟨rfl, by decide, by decide⟩

/-- C4, amended: a token persisted for a recipe that has none is '/s/'
followed by exactly the next 6 characters of the random stream (so 9
characters in all, whose random part is drawn from the 62-symbol alphabet
whenever the stream is); the generator performs a single draw with no
collision retry, appending the row regardless of the tokens already
persisted, so uniqueness of issued tokens is not guaranteed. -/
theorem get_short_link_single_draw (shortcuts : List Shortcut) (rng : List Char)
    (rid : Nat)
    (habsent : shortcuts.find? (fun sc => sc.recipe = rid) = none)
    (hlen : 6 ≤ rng.length)
    (halph : ∀ c ∈ rng, c ∈ linkAlphabet) :
    (get_short_link ⟨shortcuts, rng⟩ rid).2.shortcuts =
      shortcuts ++ [⟨rid, "/s/" ++ String.mk (rng.take 6)⟩] ∧
    ("/s/" ++ String.mk (rng.take 6)).length = 9 ∧
    (∀ c ∈ (String.mk (rng.take 6)).toList, c ∈ linkAlphabet) := by
  refine ⟨?_, ?_, ?_⟩
  · simp [get_short_link, habsent, generate_short_link]
  · have htake : (rng.take 6).length = 6 := by
      rw [List.length_take]
      omega
    have hmk : (String.mk (rng.take 6)).length = 6 := by
      simpa [String.length] using htake
    rw [String.length_append, hmk]
    rfl
  · intro c hc
    exact halph c (List.mem_of_mem_take (by simpa using hc))

/-- Closed witness for the amended C4 theorem at the stream "abc123". -/
theorem get_short_link_single_draw_witness :
    (([] : List Shortcut).find? (fun sc => sc.recipe = 0) = none) ∧
    6 ≤ "abc123".toList.length ∧
    (∀ c ∈ "abc123".toList, c ∈ linkAlphabet) ∧
    ((get_short_link ⟨[], "abc123".toList⟩ 0).2.shortcuts =
      [] ++ [⟨0, "/s/" ++ String.mk ("abc123".toList.take 6)⟩] ∧
     ("/s/" ++ String.mk ("abc123".toList.take 6)).length = 9 ∧
     (∀ c ∈ (String.mk ("abc123".toList.take 6)).toList, c ∈ linkAlphabet)) :=
  ⟨rfl, by decide, by decide,
    get_short_link_single_draw [] "abc123".toList 0 rfl (by decide) (by decide)⟩

/-- C7: issuing a short link is idempotent — a second call for the same
recipe returns the same link and leaves the state unchanged; and when the
recipe already holds a token, the call returns exactly that stored token
without regenerating or overwriting anything (generation is lazy, happening
only on the first request for a recipe that has none). -/
theorem get_short_link_idempotent (st : LinkState) (rid : Nat) :
    (get_short_link (get_short_link st rid).2 rid).1 = (get_short_link st rid).1 ∧
    (get_short_link (get_short_link st rid).2 rid).2 = (get_short_link st rid).2 ∧
    (∀ sc, st.shortcuts.find? (fun sc => sc.recipe = rid) = some sc →
      get_short_link st rid = ("https://foodgram.example.org" ++ sc.link, st)) := by
  cases hf : st.shortcuts.find? (fun sc => sc.recipe = rid) with
  | some sc =>
    have h1 : get_short_link st rid = ("https://foodgram.example.org" ++ sc.link, st) := by
      simp [get_short_link, hf]
    refine ⟨by simp [h1], by simp [h1], ?_⟩
    intro sc2 hsc2
    injection hsc2 with heq
    subst heq
    exact h1
  | none =>
    have h1 : get_short_link st rid =
        ("https://foodgram.example.org" ++ (generate_short_link st.rng).1,
          ⟨st.shortcuts ++ [⟨rid, (generate_short_link st.rng).1⟩],
            (generate_short_link st.rng).2⟩) := by
      simp [get_short_link, hf]
    have hfind2 : List.find? (fun sc : Shortcut => sc.recipe = rid)
        (st.shortcuts ++ [(⟨rid, (generate_short_link st.rng).1⟩ : Shortcut)]) =
        some (⟨rid, (generate_short_link st.rng).1⟩ : Shortcut) := by
      rw [List.find?_append, hf]
      simp
    have h2 : get_short_link
        (⟨st.shortcuts ++ [⟨rid, (generate_short_link st.rng).1⟩],
          (generate_short_link st.rng).2⟩ : LinkState) rid =
        ("https://foodgram.example.org" ++ (generate_short_link st.rng).1,
          ⟨st.shortcuts ++ [⟨rid, (generate_short_link st.rng).1⟩],
            (generate_short_link st.rng).2⟩) := by
      simp [get_short_link, hfind2]
    refine ⟨by simp [h1, h2], by simp [h1, h2], ?_⟩
    intro sc2 hsc2
    exact absurd hsc2 (by simp)

/-- Closed witness for the C7 idempotence theorem: a recipe that already
holds the token "/s/abcdef" gets exactly that token back, state unchanged. -/
theorem get_short_link_idempotent_witness :
    ((⟨[⟨1, "/s/abcdef"⟩], []⟩ : LinkState).shortcuts.find?
        (fun sc => sc.recipe = 1) = some ⟨1, "/s/abcdef"⟩) ∧
    get_short_link ⟨[⟨1, "/s/abcdef"⟩], []⟩ 1 =
      ("https://foodgram.example.org" ++ "/s/abcdef", ⟨[⟨1, "/s/abcdef"⟩], []⟩) :=
  ⟨rfl, (get_short_link_idempotent ⟨[⟨1, "/s/abcdef"⟩], []⟩ 1).2.2
    ⟨1, "/s/abcdef"⟩ rfl⟩

/-! Favorite/Cart toggle: `RecipeViewSet.manage_item` (api/views.py) over the
`Cart` and `Favorite` tables (recipes/models.py), both lists of
(user id, recipe id) rows, and the projection returned on add
(`SubscriptionRecipeSerializer`, api/serializers.py). -/

/-- A recipe row with the fields `SubscriptionRecipeSerializer` projects. -/
structure RecipeRow where
  id : Nat
  name : String
  image : Option String
  cooking_time : Nat
deriving DecidableEq, Repr

/-- The (id, name, image, cooking_time) projection of
`SubscriptionRecipeSerializer` (its Meta.fields). -/
def subscriptionRecipeProjection (r : RecipeRow) :
    Nat × String × Option String × Nat :=
  (r.id, r.name, r.image, r.cooking_time)

/-- The HTTP methods routed to `manage_item`. -/
inductive ToggleMethod
  | post
  | delete
deriving DecidableEq, Repr

/-- The four outcomes of `manage_item`: 201 with the recipe projection,
400 "already in", 204 removed, 400 "not in the". -/
inductive ToggleOutcome
  | created (proj : Nat × String × Option String × Nat)
  | alreadyExists
  | removed
  | notFound
deriving DecidableEq, Repr

/-- `RecipeViewSet.manage_item` on one membership table: the queryset is the
rows filtered to the (user, recipe) pair; POST rejects when it is non-empty,
otherwise creates the row and returns the projection; DELETE takes the
queryset's first row, rejects when there is none, otherwise deletes that row
(the first occurrence of the pair). -/
def manage_item (entries : List (Nat × Nat)) (u : Nat) (r : RecipeRow)
    (m : ToggleMethod) : ToggleOutcome × List (Nat × Nat) :=
  let qs := entries.filter (fun e => e.1 = u ∧ e.2 = r.id)
  match m with
  | .post =>
      if ¬ qs.isEmpty then (.alreadyExists, entries)
      else (.created (subscriptionRecipeProjection r), entries ++ [(u, r.id)])
  | .delete =>
      match qs.head? with
      | none => (.notFound, entries)
      | some _ => (.removed, entries.erase (u, r.id))

lemma toggle_filter_eq (entries : List (Nat × Nat)) (u : Nat) (rid : Nat) :
    entries.filter (fun e => e.1 = u ∧ e.2 = rid) =
      entries.filter (fun e => e = (u, rid)) := by
  refine List.filter_congr (fun e _ => ?_)
  by_cases h : e = (u, rid)
  · simp [h]
  · have : ¬(e.1 = u ∧ e.2 = rid) := by
      intro hc
      exact h (Prod.ext hc.1 hc.2)
    simp [h, this]

lemma toggle_filter_empty_iff (entries : List (Nat × Nat)) (u : Nat) (rid : Nat) :
    entries.filter (fun e => e.1 = u ∧ e.2 = rid) = [] ↔ (u, rid) ∉ entries := by
  rw [toggle_filter_eq, List.filter_eq_nil_iff]
  constructor
  · intro h hmem
    exact h _ hmem (by simp)
  · intro h a ha
    simp only [decide_eq_true_eq]
    intro hc
    exact h (hc ▸ ha)

lemma toggle_qs_of_mem (entries : List (Nat × Nat)) (u : Nat) (rid : Nat)
    (h : (u, rid) ∈ entries) :
    (entries.filter (fun e => e.1 = u ∧ e.2 = rid)).isEmpty = false ∧
    (entries.filter (fun e => e.1 = u ∧ e.2 = rid)).head? = some (u, rid) := by
  cases hq : entries.filter (fun e => e.1 = u ∧ e.2 = rid) with
  | nil =>
    exact absurd h ((toggle_filter_empty_iff entries u rid).mp hq)
  | cons x xs =>
    have hx : x ∈ entries.filter (fun e => e.1 = u ∧ e.2 = rid) := by
      rw [hq]
      exact List.mem_cons_self x xs
    have hxe : x = (u, rid) := by
      have hp := (List.mem_filter.mp hx).2
      have hp' := of_decide_eq_true hp
      exact Prod.ext hp'.1 hp'.2
    simp [hxe]

/-- C5: the per-(user, recipe) toggle state machine of `manage_item`, for a
membership table with at most one row per pair: add while PRESENT rejects
with AlreadyExists and leaves the pair present; add while ABSENT creates the
pair and returns the (id, name, image, cooking_time) projection; remove while
ABSENT rejects with NotFound leaving the pair absent; remove while PRESENT
deletes the pair; and no other transitions exist. -/
theorem manage_item_state_machine (entries : List (Nat × Nat)) (u : Nat)
    (r : RecipeRow) (hnd : entries.Nodup) :
    ((u, r.id) ∈ entries →
      manage_item entries u r .post = (.alreadyExists, entries)) ∧
    ((u, r.id) ∉ entries →
      manage_item entries u r .post =
        (.created (r.id, r.name, r.image, r.cooking_time), entries ++ [(u, r.id)])) ∧
    ((u, r.id) ∉ entries →
      manage_item entries u r .delete = (.notFound, entries)) ∧
    ((u, r.id) ∈ entries →
      manage_item entries u r .delete = (.removed, entries.erase (u, r.id)) ∧
        (u, r.id) ∉ (manage_item entries u r .delete).2) := by
  refine ⟨?_, ?_, ?_, ?_⟩
  · intro hmem
    have hne := (toggle_qs_of_mem entries u r.id hmem).1
    simp [manage_item, hne]
    exact hmem
  · intro hmem
    have he : entries.filter (fun e => e.1 = u ∧ e.2 = r.id) = [] :=
      (toggle_filter_empty_iff entries u r.id).mpr hmem
    simp [manage_item, he, subscriptionRecipeProjection]
    exact hmem
  · intro hmem
    have hfn : List.find? (fun e => decide (e.1 = u) && decide (e.2 = r.id))
        entries = none := by
      rw [List.find?_eq_none]
      intro x hx
      simp only [Bool.and_eq_true, decide_eq_true_eq, not_and]
      intro h1 h2
      exact hmem ((Prod.ext h1 h2 : x = (u, r.id)) ▸ hx)
    simp [manage_item, hfn]
  · intro hmem
    cases hfind : List.find? (fun e => decide (e.1 = u) && decide (e.2 = r.id))
        entries with
    | none =>
      exfalso
      exact absurd (by simp : ((fun e : Nat × Nat =>
          decide (e.1 = u) && decide (e.2 = r.id)) (u, r.id)) = true)
        (List.find?_eq_none.mp hfind (u, r.id) hmem)
    | some x =>
      constructor
      · simp [manage_item, hfind]
      · simp only [manage_item]
        simp [hfind, hnd.mem_erase_iff]

/-- Closed witness for the C5 state machine: a singleton table where the pair
is present — POST on it rejects with AlreadyExists and leaves it unchanged. -/
theorem manage_item_state_machine_witness :
    ([((1 : Nat), (2 : Nat))].Nodup) ∧ ((1, 2) ∈ [((1 : Nat), (2 : Nat))]) ∧
    manage_item [(1, 2)] 1 ⟨2, "r", none, 5⟩ ToggleMethod.post =
      (.alreadyExists, [(1, 2)]) :=
  ⟨by decide, by decide,
    (manage_item_state_machine [(1, 2)] 1 ⟨2, "r", none, 5⟩ (by decide)).1 (by decide)⟩

/-! Subscription registry: `SubscriptionViewSet.create` (api/views.py) over
the `Subscription` table (recipes/models.py), rows (user id, author id). -/

/-- The outcomes of `SubscriptionViewSet.create`: 404 unknown author,
400 self-subscription, 400 existing subscription, 201 created. -/
inductive SubOutcome
  | userNotFound
  | selfForbidden
  | alreadyExists
  | created
deriving DecidableEq, Repr

/-- `SubscriptionViewSet.create`: look the author up (404 when missing),
reject `request.user == author`, reject an existing (user, author) row,
otherwise persist the subscription row — in that source order. -/
def subscriptionCreate (users : List Nat) (subs : List (Nat × Nat))
    (requester : Nat) (author_id : Nat) : SubOutcome × List (Nat × Nat) :=
  if author_id ∉ users then (.userNotFound, subs)
  else if requester = author_id then (.selfForbidden, subs)
  else if subs.any (fun s => s.1 = requester ∧ s.2 = author_id) then
    (.alreadyExists, subs)
  else (.created, subs ++ [(requester, author_id)])

/-- C6: for every user u, subscribing to oneself is rejected with the
self-subscription error regardless of the prior subscription state — the
guard fires before the existence check, so even a state already containing
(u, u) yields SelfSubscriptionForbidden, not AlreadyExists — with the state
unchanged; and no call whatsoever persists a self-subscription that was not
already present. -/
theorem subscribe_self_forbidden (users : List Nat) (subs : List (Nat × Nat))
    (u : Nat) (hu : u ∈ users) :
    subscriptionCreate users subs u u = (.selfForbidden, subs) ∧
    (∀ v a, (v, v) ∉ subs → (v, v) ∉ (subscriptionCreate users subs v a).2) := by
  constructor
  · simp [subscriptionCreate, hu]
  · intro v a hvv
    unfold subscriptionCreate
    by_cases h1 : a ∉ users
    · simp [h1, hvv]
    · by_cases h2 : v = a
      · subst h2
        simp [h1, hvv]
      · by_cases h3 : subs.any (fun s => s.1 = v ∧ s.2 = a) = true
        · have hmemva : (v, a) ∈ subs := by
            obtain ⟨x, hx, hpx⟩ := List.any_eq_true.mp h3
            obtain ⟨hx1, hx2⟩ := of_decide_eq_true hpx
            exact (Prod.ext hx1 hx2 : x = (v, a)) ▸ hx
          simp [h1, h2, h3, hmemva, hvv]
        · rw [if_neg h1, if_neg h2, if_neg h3]
          intro hc
          rcases List.mem_append.mp hc with hc1 | hc2
          · exact hvv hc1
          · exact h2 (congrArg Prod.snd (List.mem_singleton.mp hc2))

/-- Closed witness for C6: user 7 exists and already has the (impossible in
the app, but storable) row (7, 7); subscribing to oneself still answers
SelfSubscriptionForbidden with the state unchanged. -/
theorem subscribe_self_forbidden_witness :
    ((7 : Nat) ∈ [(7 : Nat)]) ∧
    subscriptionCreate [7] [(7, 7)] 7 7 = (.selfForbidden, [(7, 7)]) :=
  ⟨by decide, (subscribe_self_forbidden [7] [(7, 7)] 7 (by decide)).1⟩

/-! Subscription listing: `SubscriptionSerializer.get_recipes`
(api/serializers.py) — the per-author recipe list under the optional
`recipes_limit` query parameter.  The source wraps BOTH the conversion
`int(recipes_limit)` and the slice `recipes[:recipes_limit]` in one
`try ... except ValueError: pass`, so a ValueError raised by either —
`int()` on a non-numeric string, or Django's QuerySet slicing on a negative
bound ("Negative indexing is not supported.") — leaves `recipes` as the full
list.  The Python builtin `int()` has a Unicode-aware numeral grammar
(signs, surrounding whitespace, digit-group underscores, non-ASCII decimal
digits) that we do not re-implement; `get_recipes` only branches on its
outcome, so the conversion is modelled by that outcome: an integer, or a
ValueError. -/

/-- The exception class `ValueError` as the try block sees it. -/
inductive PyValueError
  | valueError
deriving DecidableEq, Repr

/-- The outcome of the Python builtin `int(s)` on the query-parameter
string: an integer, or a ValueError for a non-numeric string. -/
inductive IntOutcome
  | value (n : Int)
  | valueError
deriving DecidableEq, Repr

/-- Django QuerySet slicing `recipes[:limit]`: a non-negative bound
truncates to the first `limit` rows; a negative bound raises
ValueError("Negative indexing is not supported."). -/
def querySetSlice (recipes : List RecipeRow) (limit : Int) :
    Except PyValueError (List RecipeRow) :=
  if limit < 0 then .error .valueError
  else .ok (recipes.take limit.toNat)

/-- The try block of `SubscriptionSerializer.get_recipes`: convert the limit
with `int()` (given by its outcome), then slice; a ValueError from either
step propagates out of the block. -/
def limitTryBlock (recipes : List RecipeRow) (conv : IntOutcome) :
    Except PyValueError (List RecipeRow) :=
  match conv with
  | .valueError => .error .valueError
  | .value n => querySetSlice recipes n

/-- `SubscriptionSerializer.get_recipes`: with no `recipes_limit` parameter
the full recipe list is returned; with one, the try block runs under
`except ValueError: pass`, so on ValueError `recipes` is left as the full
list, and otherwise the sliced list is used. -/
def get_recipes (recipes : List RecipeRow)
    (recipes_limit : Option IntOutcome) : List RecipeRow :=
  match recipes_limit with
  | none => recipes
  | some conv =>
      match limitTryBlock recipes conv with
      | .error _ => recipes
      | .ok r => r

/-- C8, counterexample: the non-positive limit 0 (the parameter string "0",
whose `int()` outcome is the integer 0) is NOT ignored — with one recipe
stored, `get_recipes` under limit 0 returns the empty list, not the full
recipe list the claim requires. -/
theorem get_recipes_zero_limit_counterexample :
    get_recipes [⟨1, "r", none, 5⟩] (some (.value 0)) = [] ∧
    get_recipes [⟨1, "r", none, 5⟩] (some (.value 0)) ≠ [⟨1, "r", none, 5⟩] :=
  ⟨rfl, by decide⟩

/-- C8, amended: an absent limit, a non-numeric limit (`int()` raises
ValueError) and a negative numeric limit (the QuerySet slice raises
ValueError, caught by the same `except` clause) are all ignored — no cap,
the full recipe list is returned; but a non-negative numeric limit is
applied as a prefix slice, so limit 0 yields the empty list rather than the
full one: "non-positive is ignored" fails exactly at 0. -/
theorem get_recipes_limit_behaviour (recipes : List RecipeRow) :
    get_recipes recipes none = recipes ∧
    get_recipes recipes (some .valueError) = recipes ∧
    (∀ n : Int, n < 0 → get_recipes recipes (some (.value n)) = recipes) ∧
    (∀ n : Int, 0 ≤ n →
      get_recipes recipes (some (.value n)) = recipes.take n.toNat) := by
  refine ⟨rfl, rfl, ?_, ?_⟩
  · intro n hn
    simp [get_recipes, limitTryBlock, querySetSlice, hn]
  · intro n hn
    simp [get_recipes, limitTryBlock, querySetSlice, not_lt.mpr hn]

/-- Closed witness for the amended C8 theorem: over three stored recipes,
the negative limit -3 is ignored (full list) and the limit 2 truncates to
the first two. -/
theorem get_recipes_limit_behaviour_witness :
    ((-3 : Int) < 0 ∧ (0 : Int) ≤ 2) ∧
    get_recipes [⟨1, "a", none, 1⟩, ⟨2, "b", none, 2⟩, ⟨3, "c", none, 3⟩]
        (some (.value (-3))) =
      [⟨1, "a", none, 1⟩, ⟨2, "b", none, 2⟩, ⟨3, "c", none, 3⟩] ∧
    get_recipes [⟨1, "a", none, 1⟩, ⟨2, "b", none, 2⟩, ⟨3, "c", none, 3⟩]
        (some (.value 2)) =
      [⟨1, "a", none, 1⟩, ⟨2, "b", none, 2⟩, ⟨3, "c", none, 3⟩].take
        (2 : Int).toNat :=
  ⟨⟨by decide, by decide⟩,
   (get_recipes_limit_behaviour
     [⟨1, "a", none, 1⟩, ⟨2, "b", none, 2⟩, ⟨3, "c", none, 3⟩]).2.2.1
     (-3) (by decide),
   (get_recipes_limit_behaviour
     [⟨1, "a", none, 1⟩, ⟨2, "b", none, 2⟩, ⟨3, "c", none, 3⟩]).2.2.2
     2 (by decide)⟩

/-! Storage-layer uniqueness: the Meta constraints declared in
recipes/models.py.  `Subscription.Meta` declares
UniqueConstraint(fields=['user', 'author'], name='unique_user_author');
`Cart.Meta` and `Favorite.Meta` declare no constraints at all. -/

/-- A `UniqueConstraint(fields=[...])` declaration. -/
structure UniqueConstraint where
  fields : List String
deriving DecidableEq, Repr

/-- `Subscription.Meta.constraints` as declared in recipes/models.py. -/
def subscriptionConstraints : List UniqueConstraint := [⟨["user", "author"]⟩]

/-- `Cart.Meta` declares no constraints (recipes/models.py). -/
def cartConstraints : List UniqueConstraint := []

/-- `Favorite.Meta` declares no constraints (recipes/models.py). -/
def favoriteConstraints : List UniqueConstraint := []

/-- The value a membership row (user, second) carries in a named column; the
second column is `author` for Subscription and `recipe` for Cart/Favorite. -/
def columnValue (secondColumn : String) (row : Nat × Nat) (f : String) :
    Option Nat :=
  if f = "user" then some row.1
  else if f = secondColumn then some row.2
  else none

/-- The storage error a violated unique constraint raises. -/
inductive StorageError
  | uniqueViolation
deriving DecidableEq, Repr

/-- A storage-layer insert under a model's declared constraints — the
relational store's enforcement, which the application cannot bypass: the
insert is rejected exactly when some declared UniqueConstraint already has a
stored row agreeing with the new row on every constrained column. -/
def storageInsert (constraints : List UniqueConstraint) (secondColumn : String)
    (rows : List (Nat × Nat)) (row : Nat × Nat) :
    Except StorageError (List (Nat × Nat)) :=
  if constraints.any (fun c => rows.any (fun r =>
      c.fields.all (fun f =>
        columnValue secondColumn r f = columnValue secondColumn row f)))
  then .error .uniqueViolation
  else .ok (rows ++ [row])

/-- C9, counterexample: the Cart and Favorite models declare NO storage-layer
uniqueness constraint, so inserting the very pair (1, 1) that is already
stored succeeds at the storage layer and leaves two identical (user, recipe)
entries coexisting — the claim fails for Favorite and Cart. -/
theorem cart_favorite_unique_not_enforced_counterexample :
    storageInsert cartConstraints "recipe" [(1, 1)] (1, 1) = .ok [(1, 1), (1, 1)] ∧
    storageInsert favoriteConstraints "recipe" [(1, 1)] (1, 1) =
      .ok [(1, 1), (1, 1)] :=
  ⟨rfl, rfl⟩

/-- C9, amended: only the Subscription relation's per-(follower, author)
uniqueness is enforced at the storage layer (its declared
UniqueConstraint(['user', 'author']) rejects any insert duplicating a stored
pair even when the application-level existence check is bypassed); the
Favorite and Cart models declare no storage constraint, so every insert into
them succeeds and duplicate (user, recipe) entries can coexist. -/
theorem subscription_unique_enforced (rows : List (Nat × Nat))
    (row : Nat × Nat) (hdup : row ∈ rows) :
    storageInsert subscriptionConstraints "author" rows row =
      .error .uniqueViolation ∧
    (∀ (rows2 : List (Nat × Nat)) (row2 : Nat × Nat),
      storageInsert cartConstraints "recipe" rows2 row2 = .ok (rows2 ++ [row2])) ∧
    (∀ (rows2 : List (Nat × Nat)) (row2 : Nat × Nat),
      storageInsert favoriteConstraints "recipe" rows2 row2 =
        .ok (rows2 ++ [row2])) := by
  refine ⟨?_, fun rows2 row2 => rfl, fun rows2 row2 => rfl⟩
  have hany : subscriptionConstraints.any (fun c => rows.any (fun r =>
      c.fields.all (fun f =>
        columnValue "author" r f = columnValue "author" row f))) = true := by
    simp only [subscriptionConstraints, List.any_cons, List.any_nil, Bool.or_false]
    refine List.any_eq_true.mpr ⟨row, hdup, ?_⟩
    simp [columnValue]
  simp [storageInsert, hany]

/-- Closed witness for the amended C9 theorem: the stored Subscription pair
(1, 2) cannot be inserted again. -/
theorem subscription_unique_enforced_witness :
    ((1, 2) ∈ [((1 : Nat), (2 : Nat))]) ∧
    storageInsert subscriptionConstraints "author" [(1, 2)] (1, 2) =
      .error .uniqueViolation :=
  ⟨by decide, (subscription_unique_enforced [(1, 2)] (1, 2) (by decide)).1⟩

/-! Read-side flags: `RecipeSerializer._check_user_recipe_status`
(api/serializers.py), shared by `get_is_favorited` and
`get_is_in_shopping_cart`. -/

/-- The request as the serializer reads it: `request.user` always exists
(an authenticated user or AnonymousUser) and carries `is_authenticated`. -/
structure Request where
  user : Nat
  is_authenticated : Bool
deriving DecidableEq, Repr

/-- The Python error surfaced when an attribute of None is read. -/
inductive PyError
  | attributeError
deriving DecidableEq, Repr

/-- `RecipeSerializer._check_user_recipe_status`: `current_user =
request.user if request else None`; with no request in the serializer
context, `current_user` is None and evaluating `None.is_authenticated`
raises AttributeError; otherwise the flag is `user.is_authenticated and
<membership row for (user, recipe) exists>`. -/
def check_user_recipe_status (ctxRequest : Option Request)
    (entries : List (Nat × Nat)) (recipeId : Nat) : Except PyError Bool :=
  match ctxRequest with
  | none => .error .attributeError
  | some req =>
      .ok (req.is_authenticated &&
        entries.any (fun e => e.1 = req.user ∧ e.2 = recipeId))

/-- C10, counterexample: with no request context supplied and a matching
Favorite/Cart row stored, the check raises AttributeError instead of
evaluating to false — the claim's "or no request context is supplied" branch
fails. -/
theorem check_status_no_request_counterexample :
    check_user_recipe_status none [(1, 1)] 1 = .error .attributeError ∧
    check_user_recipe_status none [(1, 1)] 1 ≠ .ok false :=
  ⟨rfl, fun h => Except.noConfusion h⟩

/-- C10, amended: whenever a request context is present and its principal is
not authenticated, is_favorited / is_in_shopping_cart evaluate to false
regardless of which membership rows exist in storage; when no request
context is supplied, the check raises AttributeError (None.is_authenticated)
rather than returning false. -/
theorem check_status_unauthenticated_false (req : Request)
    (entries : List (Nat × Nat)) (rid : Nat)
    (hauth : req.is_authenticated = false) :
    check_user_recipe_status (some req) entries rid = .ok false ∧
    check_user_recipe_status none entries rid = .error .attributeError := by
  refine ⟨?_, rfl⟩
  simp [check_user_recipe_status, hauth]

/-- Closed witness for the amended C10 theorem: an anonymous principal and a
stored row still yield false. -/
theorem check_status_unauthenticated_false_witness :
    (⟨1, false⟩ : Request).is_authenticated = false ∧
    check_user_recipe_status (some ⟨1, false⟩) [(1, 2)] 2 = .ok false :=
  ⟨rfl, (check_status_unauthenticated_false ⟨1, false⟩ [(1, 2)] 2 rfl).1⟩

end Foodgram
